import Mathlib

/-!
# Verification of the findawise ML scripts

A shallow embedding of the repository's machine-learning scripts
(`scripts/ml/train_model.py`, `scripts/ml/evaluate_model.py`,
`scripts/ml/predict.py`, `scripts/ml_training.py`) and proofs of the
specification claims about them.

Conventions of the embedding:
* JSON numbers are rationals (`Rat`); a JSON record is an association list
  `List (String × Rat)`.
* Python exceptions are the `PyError` type; a script run either prints a
  JSON result (`RunResult.printed`) or dies with an uncaught exception
  (`RunResult.uncaught`).  The three `scripts/ml/*.py` files contain no
  `try`/`except`, so every exception there is uncaught; `ml_training.py`
  has inner and top-level handlers, which are embedded explicitly.
* The external modeling library (scikit-learn) is not part of the
  repository; its `fit` operation is a parameter `fitLib` of the embedded
  scripts.  A fitted estimator is a `FittedModel`: a prediction function
  plus the optional attributes the scripts probe with `hasattr`
  (`feature_importances_`, `predict_proba`).
* `numpy`'s seeded permutation (used by `train_test_split` with
  `random_state=42`) is embedded as an explicit deterministic Fisher-Yates
  shuffle driven by a linear congruential generator; only its determinism
  and its length are relevant to the claims.
-/

/-- Python exceptions that the scripts can raise.  `modelNotFound` embeds
the `FileNotFoundError` that `joblib.load` raises when the model artifact
is absent from the Model Store (the spec's `ModelNotFoundError`). -/
inductive PyError where
  | keyError
  | valueError
  | modelNotFound
  deriving DecidableEq, Repr

/-- Observable outcome of one script process: either a JSON object printed
to stdout, or an uncaught exception propagating to the shell. -/
inductive RunResult (α : Type) where
  | printed (out : α)
  | uncaught (e : PyError)

/-- Whether the run printed a result (rather than dying on an exception). -/
def RunResult.didPrint : RunResult α → Bool
  | .printed _ => true
  | .uncaught _ => false

/-- A JSON record: mapping from key to numeric value. -/
abbrev Record := List (String × Rat)

/-- Whether the DataFrame built from `rs` has column `k`: pandas creates a
column for a key as soon as at least one record contains it. -/
def colExists (rs : List Record) (k : String) : Bool :=
  rs.any (fun r => (r.lookup k).isSome)

/-- Feature Builder (`X = df[config['features']]`, `y = df[target]` in
`train_model.py:26-27` / `evaluate_model.py:22-23`): selecting existing
columns succeeds, records lacking the key yield `NaN` cells (here `none`);
selecting a column no record contains raises a pandas `KeyError`. -/
def featureBuild (rs : List Record) (features : List String) (target : String) :
    Except PyError (List (List (Option Rat)) × List (Option Rat)) :=
  if (features.all (colExists rs)) && colExists rs target then
    .ok (rs.map (fun r => features.map (fun f => r.lookup f)),
         rs.map (fun r => r.lookup target))
  else
    .error .keyError

/-- Collapse a column with no `NaN` entries to its values; `none` if any
entry is missing.  The estimators used by the scripts raise `ValueError`
when a `NaN` reaches `fit`/`predict`; the scripts run this validation once
on the built matrix. -/
def deNaN : List (Option Rat) → Option (List Rat)
  | [] => some []
  | none :: _ => none
  | some x :: t => (deNaN t).map (x :: ·)

/-- `deNaN` for a whole matrix (row by row). -/
def deNaNMat : List (List (Option Rat)) → Option (List (List Rat))
  | [] => some []
  | row :: t =>
    match deNaN row with
    | none => none
    | some r => (deNaNMat t).map (r :: ·)

/-- One step of a linear congruential generator (glibc constants); drives
the embedded model of `numpy`'s seeded shuffle. -/
def lcgNext (s : Nat) : Nat := (1103515245 * s + 12345) % 2147483648

/-- Extract the element at position `k` of a list (clipped to the front on
out-of-range), returning it together with the remaining list.  Helper for
the Fisher-Yates shuffle. -/
def pickOut : List Nat → Nat → Nat × List Nat
  | [], _ => (0, [])
  | h :: t, 0 => (h, t)
  | h :: t, k + 1 =>
    match t with
    | [] => (h, [])
    | _ :: _ =>
      let p := pickOut t k
      (p.1, h :: p.2)

/-- Fisher-Yates shuffle with explicit fuel, driven by the LCG stream. -/
def shuffleAux : Nat → Nat → List Nat → List Nat
  | 0, _, l => l
  | fuel + 1, s, l =>
    match l with
    | [] => []
    | _ :: _ =>
      let k := s % l.length
      let p := pickOut l k
      p.1 :: shuffleAux fuel (lcgNext s) p.2

/-- Deterministic pseudo-random permutation of `0..n-1` keyed by `seed`:
the embedding of `numpy.random.RandomState(seed).permutation(n)`, which
`train_test_split(..., random_state=42)` uses to shuffle the row indices.
Only determinism (a pure function of `seed` and `n`) and length matter to
the claims; the concrete shuffle stands in for numpy's. -/
def randPerm (seed n : Nat) : List Nat :=
  shuffleAux n (lcgNext seed) (List.range n)

/-- Size of the test partition: `train_test_split` with `test_size=0.2`
takes `ceil(0.2 * n)` rows for the test set. -/
def nTestOf (n : Nat) : Nat := (n + 4) / 5

/-- The shuffled index order produced by `train_test_split(..., random_state=42)`. -/
def splitPerm (n : Nat) : List Nat := randPerm 42 n

/-- Indices of the test partition (first `nTestOf n` shuffled indices). -/
def testIdxOf (n : Nat) : List Nat := (splitPerm n).take (nTestOf n)

/-- Indices of the train partition (the remaining shuffled indices). -/
def trainIdxOf (n : Nat) : List Nat := (splitPerm n).drop (nTestOf n)

/-- Class labels appearing in either the true or the predicted vector:
`sklearn` computes per-class statistics over the union of observed labels
(our list is first-occurrence deduplicated; the order never affects the
weighted averages below). -/
def classesOf (yTrue yPred : List Rat) : List Rat := (yTrue ++ yPred).dedup

/-- True positives of class `c` over the zipped (true, predicted) pairs. -/
def tpOf (pairs : List (Rat × Rat)) (c : Rat) : Nat :=
  pairs.countP (fun ab => ab.1 == c && ab.2 == c)

/-- Support of class `c`: occurrences of `c` among the true labels. -/
def suppOf (pairs : List (Rat × Rat)) (c : Rat) : Nat :=
  pairs.countP (fun ab => ab.1 == c)

/-- Occurrences of class `c` among the predicted labels. -/
def predCountOf (pairs : List (Rat × Rat)) (c : Rat) : Nat :=
  pairs.countP (fun ab => ab.2 == c)

/-- Per-class precision, with sklearn's `zero_division` default of `0`
when the class is never predicted. -/
def precisionC (pairs : List (Rat × Rat)) (c : Rat) : Rat :=
  if predCountOf pairs c = 0 then 0 else (tpOf pairs c : Rat) / (predCountOf pairs c : Rat)

/-- Per-class recall, with `0` when the class has no support. -/
def recallC (pairs : List (Rat × Rat)) (c : Rat) : Rat :=
  if suppOf pairs c = 0 then 0 else (tpOf pairs c : Rat) / (suppOf pairs c : Rat)

/-- Per-class F1: harmonic mean of precision and recall (`0` when both
vanish). -/
def f1C (pairs : List (Rat × Rat)) (c : Rat) : Rat :=
  let p := precisionC pairs c
  let r := recallC pairs c
  if p + r = 0 then 0 else 2 * p * r / (p + r)

/-- `average='weighted'`: per-class scores averaged with the class
supports as weights (`numpy.average`, i.e. `Σ wᵢ·xᵢ / Σ wᵢ`). -/
def weightedAvg (pairs : List (Rat × Rat)) (classes : List Rat) (f : Rat → Rat) : Rat :=
  ((classes.map (fun c => (suppOf pairs c : Rat) * f c)).sum) /
    ((classes.map (fun c => (suppOf pairs c : Rat))).sum)

/-- `accuracy_score`: fraction of positions where prediction equals truth. -/
def accuracyScore (yTrue yPred : List Rat) : Rat :=
  (((yTrue.zip yPred).countP (fun ab => ab.1 == ab.2) : Nat) : Rat) / (yTrue.length : Rat)

/-- `confusion_matrix`: row = true class, column = predicted class. -/
def confusionOf (pairs : List (Rat × Rat)) (classes : List Rat) : List (List Nat) :=
  classes.map (fun ci => classes.map (fun cj =>
    pairs.countP (fun ab => ab.1 == ci && ab.2 == cj)))

/-- The classification metric set shared by `train_model.py:53-56,77` and
`evaluate_model.py:29-32,45`. -/
structure Metrics where
  accuracy : Rat
  precisionScore : Rat
  recallScore : Rat
  f1Score : Rat
  confusion : List (List Nat)
  deriving DecidableEq, Repr

/-- Compute the metric set exactly as both scripts do: accuracy plus
weighted-average precision/recall/F1 plus the confusion matrix. -/
def computeMetrics (yTrue yPred : List Rat) : Metrics :=
  let pairs := yTrue.zip yPred
  let cs := classesOf yTrue yPred
  { accuracy := accuracyScore yTrue yPred
    precisionScore := weightedAvg pairs cs (precisionC pairs)
    recallScore := weightedAvg pairs cs (recallC pairs)
    f1Score := weightedAvg pairs cs (f1C pairs)
    confusion := confusionOf pairs cs }

/-- Hyperparameters: the JSON dictionary passed as `sys.argv[3]` and
splatted into the estimator constructor. -/
abbrev Hyper := List (String × Rat)

/-- The estimator configurations `train_model.py:35-44` can construct:
one constructor per scikit-learn class, carrying the hyperparameter
dictionary it was instantiated with. -/
inductive SkEstimator where
  | randomForest (hp : Hyper)
  | gradientBoosting (hp : Hyper)
  | logisticRegression (hp : Hyper)
  | mlp (hp : Hyper)
  deriving DecidableEq, Repr

/-- The hyperparameter dictionary an estimator was constructed with. -/
def SkEstimator.hyperOf : SkEstimator → Hyper
  | .randomForest hp => hp
  | .gradientBoosting hp => hp
  | .logisticRegression hp => hp
  | .mlp hp => hp

/-- An estimator is seeded when its hyperparameters pin `random_state`;
otherwise scikit-learn draws from process-level entropy when fitting. -/
def SkEstimator.seeded (est : SkEstimator) : Bool :=
  (est.hyperOf.lookup "random_state").isSome

/-- `train_model.py:35-44`: the `if`/`elif` chain over
`config['algorithm']`.  Any name outside the four known ones falls through
to `RandomForestClassifier()` with library-default hyperparameters. -/
def selectEstimator (algorithm : String) (hp : Hyper) : SkEstimator :=
  if algorithm = "random_forest" then .randomForest hp
  else if algorithm = "gradient_boosting" then .gradientBoosting hp
  else if algorithm = "logistic_regression" then .logisticRegression hp
  else if algorithm = "neural_network" then .mlp hp
  else .randomForest []

/-- A fitted scikit-learn model as the scripts observe it: a prediction
function on feature rows, plus the two optional attributes probed with
`hasattr` — `feature_importances_` (a weight per feature) and
`predict_proba` (per-class probabilities for a row). -/
structure FittedModel where
  predictFn : List Rat → Rat
  featImp : Option (List Rat)
  proba : Option (List Rat → List Rat)

/-- The external library's `fit`: from an estimator configuration, a
feature matrix, a label vector and the process entropy (used only by
unseeded estimators), produce a fitted model.  The scripts are verified
for every such library. -/
abbrev FitLib := SkEstimator → List (List Rat) → List Rat → Nat → FittedModel

/-- The `hasattr(model, 'feature_importances_')` idiom shared verbatim by
`train_model.py:62-65`, `evaluate_model.py:34-38` and `predict.py:29-33`:
`dict(zip(names, importances))` when the attribute exists, `{}` otherwise. -/
def featureImportanceDict (m : FittedModel) (names : List String) : List (String × Rat) :=
  match m.featImp with
  | some w => names.zip w
  | none => []

/-- Contiguous `(start, size)` ranges of the 5 folds `KFold(5)` makes of
`n` rows: the first `n % 5` folds get `n / 5 + 1` rows, the rest `n / 5`
(no shuffling — `cross_val_score(..., cv=5)` uses unshuffled `KFold`). -/
def foldRangesOf (n : Nat) : List (Nat × Nat) :=
  (List.range 5).map (fun i =>
    let q := n / 5
    let r := n % 5
    let size := q + (if i < r then 1 else 0)
    let start := i * q + min i r
    (start, size))

/-- `cross_val_score(model, X_train, y_train, cv=5)`
(`train_model.py:59`): for each fold, clone-and-fit the estimator
configuration on the other folds and score accuracy on the held-out fold. -/
def cvScores (fitLib : FitLib) (est : SkEstimator) (x : List (List Rat))
    (y : List Rat) (env : Nat) : List Rat :=
  (foldRangesOf x.length).map (fun sr =>
    let teX := (x.drop sr.1).take sr.2
    let teY := (y.drop sr.1).take sr.2
    let trX := x.take sr.1 ++ x.drop (sr.1 + sr.2)
    let trY := y.take sr.1 ++ y.drop (sr.1 + sr.2)
    let m := fitLib est trX trY env
    accuracyScore teY (teX.map m.predictFn))

/-- Mean of the five cross-validation scores (`cv_scores.mean()`). -/
def cvMean (fitLib : FitLib) (est : SkEstimator) (x : List (List Rat))
    (y : List Rat) (env : Nat) : Rat :=
  (cvScores fitLib est x y env).sum / 5

/-- The JSON object `train_model.py:71-79` prints. -/
structure TrainResults where
  accuracy : Rat
  precisionScore : Rat
  recallScore : Rat
  f1Score : Rat
  crossValidationScore : Rat
  confusionMatrix : List (List Nat)
  featureImportance : List (String × Rat)

/-- The parsed command-line payload of `train_model.py`: `data['data']`,
`data['config']` (features / targetVariable / algorithm) and the
hyperparameter JSON from `sys.argv[3]`. -/
structure TrainInput where
  data : List Record
  features : List String
  targetVariable : String
  algorithm : String
  hyper : Hyper

/-- The embedding of `train_model.py`'s `train_model()` (lines 13-84):
build `X`/`y` from the DataFrame, split 80/20 with `random_state=42`,
instantiate the estimator from `config['algorithm']`, fit on the train
partition, score the test partition, cross-validate on the train
partition, extract feature importances, and print the result JSON while
saving the fitted model (`joblib.dump`).  The function has no
`try`/`except`: every raised exception is an uncaught crash.  The fitted
model returned alongside the results is the artifact written by
`joblib.dump(model, sys.argv[2])`. -/
def trainScript (fitLib : FitLib) (inp : TrainInput) (env : Nat) :
    RunResult (TrainResults × FittedModel) :=
  match featureBuild inp.data inp.features inp.targetVariable with
  | .error e => .uncaught e
  | .ok xy =>
    match deNaNMat xy.1, deNaN xy.2 with
    | some xc, some yc =>
      let n := inp.data.length
      let tIdx := trainIdxOf n
      let sIdx := testIdxOf n
      if tIdx.length = 0 then .uncaught .valueError
      else
        let xTr := tIdx.map (fun i => xc.getD i [])
        let yTr := tIdx.map (fun i => yc.getD i 0)
        let xTe := sIdx.map (fun i => xc.getD i [])
        let yTe := sIdx.map (fun i => yc.getD i 0)
        let est := selectEstimator inp.algorithm inp.hyper
        let m := fitLib est xTr yTr env
        let yPred := xTe.map m.predictFn
        let mets := computeMetrics yTe yPred
        if xTr.length < 5 then .uncaught .valueError
        else
          .printed ({ accuracy := mets.accuracy
                      precisionScore := mets.precisionScore
                      recallScore := mets.recallScore
                      f1Score := mets.f1Score
                      crossValidationScore := cvMean fitLib est xTr yTr env
                      confusionMatrix := mets.confusion
                      featureImportance := featureImportanceDict m inp.features }, m)
    | _, _ => .uncaught .valueError

/-- The feature matrix the Feature Builder yields on fully-populated
input, with the `NaN` validation already passed. -/
def cleanMat (inp : TrainInput) : List (List Rat) :=
  inp.data.map (fun r => inp.features.map (fun f => (r.lookup f).getD 0))

/-- The target vector on fully-populated input. -/
def cleanTgt (inp : TrainInput) : List Rat :=
  inp.data.map (fun r => (r.lookup inp.targetVariable).getD 0)

/-- Train-partition feature rows of the 80/20 split. -/
def happyXtr (inp : TrainInput) : List (List Rat) :=
  (trainIdxOf inp.data.length).map (fun i => (cleanMat inp).getD i [])

/-- Train-partition labels. -/
def happyYtr (inp : TrainInput) : List Rat :=
  (trainIdxOf inp.data.length).map (fun i => (cleanTgt inp).getD i 0)

/-- Test-partition feature rows. -/
def happyXte (inp : TrainInput) : List (List Rat) :=
  (testIdxOf inp.data.length).map (fun i => (cleanMat inp).getD i [])

/-- Test-partition labels. -/
def happyYte (inp : TrainInput) : List Rat :=
  (testIdxOf inp.data.length).map (fun i => (cleanTgt inp).getD i 0)

/-- Closed form of `trainScript`'s success path: the printed result and
the saved model artifact, expressed directly in terms of the input. -/
def trainHappy (fitLib : FitLib) (inp : TrainInput) (env : Nat) :
    TrainResults × FittedModel :=
  let est := selectEstimator inp.algorithm inp.hyper
  let m := fitLib est (happyXtr inp) (happyYtr inp) env
  let mets := computeMetrics (happyYte inp) ((happyXte inp).map m.predictFn)
  ({ accuracy := mets.accuracy
     precisionScore := mets.precisionScore
     recallScore := mets.recallScore
     f1Score := mets.f1Score
     crossValidationScore := cvMean fitLib est (happyXtr inp) (happyYtr inp) env
     confusionMatrix := mets.confusion
     featureImportance := featureImportanceDict m inp.features }, m)

/-- A `TrainInput` is fully populated when every record carries every
feature key and the target key. -/
def fullyKeyed (inp : TrainInput) : Prop :=
  ∀ r ∈ inp.data, (∀ f ∈ inp.features, (r.lookup f).isSome) ∧
    (r.lookup inp.targetVariable).isSome

instance (inp : TrainInput) : Decidable (fullyKeyed inp) := by
  unfold fullyKeyed
  infer_instance

/-- The JSON object `evaluate_model.py:40-47` prints: the Trainer's metric
set minus the cross-validation score, plus feature importances. -/
structure EvalResults where
  accuracy : Rat
  precisionScore : Rat
  recallScore : Rat
  f1Score : Rat
  confusionMatrix : List (List Nat)
  featureImportance : List (String × Rat)

/-- The command-line payload of `evaluate_model.py`: the model artifact
named by `sys.argv[1]` (`none` when absent from the Model Store), the
labeled records from `sys.argv[2]`, and the feature-name list from
`sys.argv[3]`. -/
structure EvalInput where
  modelFile : Option FittedModel
  data : List Record
  featureNames : List String

/-- The embedding of `evaluate_model.py`'s `evaluate_model()` (lines
9-52): `joblib.load` the model (uncaught `FileNotFoundError` when the
artifact is absent), build `X = df[feature_names]` and `y = df['target']`,
predict over the whole supplied dataset — no train/test split — and print
the same metric set the Trainer computes.  No `try`/`except` anywhere. -/
def evaluateScript (inp : EvalInput) : RunResult EvalResults :=
  match inp.modelFile with
  | none => .uncaught .modelNotFound
  | some m =>
    match featureBuild inp.data inp.featureNames "target" with
    | .error e => .uncaught e
    | .ok xy =>
      match deNaNMat xy.1, deNaN xy.2 with
      | some xc, some yc =>
        let yPred := xc.map m.predictFn
        let mets := computeMetrics yc yPred
        .printed { accuracy := mets.accuracy
                   precisionScore := mets.precisionScore
                   recallScore := mets.recallScore
                   f1Score := mets.f1Score
                   confusionMatrix := mets.confusion
                   featureImportance := featureImportanceDict m inp.featureNames }
      | _, _ => .uncaught .valueError

/-- The full-dataset feature matrix the Evaluator scores. -/
def evalMat (inp : EvalInput) : List (List Rat) :=
  inp.data.map (fun r => inp.featureNames.map (fun f => (r.lookup f).getD 0))

/-- The full-dataset target vector (`df['target']`). -/
def evalTgt (inp : EvalInput) : List Rat :=
  inp.data.map (fun r => (r.lookup "target").getD 0)

/-- An `EvalInput` is fully populated when every record carries every
feature key and the `target` key. -/
def evalFullyKeyed (inp : EvalInput) : Prop :=
  ∀ r ∈ inp.data, (∀ f ∈ inp.featureNames, (r.lookup f).isSome) ∧
    (r.lookup "target").isSome

instance (inp : EvalInput) : Decidable (evalFullyKeyed inp) := by
  unfold evalFullyKeyed
  infer_instance

/-- `max(probabilities)` in Python: raises `ValueError` on an empty
sequence, otherwise folds binary `max` over the elements. -/
def pyMax (l : List Rat) : Except PyError Rat :=
  match l with
  | [] => .error .valueError
  | h :: t => .ok (t.foldl max h)

/-- The JSON object `predict.py:35-40` prints. -/
structure PredictResults where
  prediction : Rat
  confidence : Rat
  featureImportance : List (String × Rat)
  explanation : String

/-- The command-line payload of `predict.py`: the model artifact named by
`sys.argv[1]` (`none` when absent), the feature dictionary from
`sys.argv[2]`, and the feature-name list from `sys.argv[3]`. -/
structure PredictInput where
  modelFile : Option FittedModel
  features : List (String × Rat)
  featureNames : List String

/-- The single feature row `pd.DataFrame([features])` passes to the model:
the dictionary's values in insertion order. -/
def predictRow (inp : PredictInput) : List Rat := inp.features.map (fun kv => kv.2)

/-- `predict.py:22-27`: the confidence computation — the `hasattr(model,
'predict_proba')` probe, taking `max(model.predict_proba(df)[0])` when
present (a `ValueError` on an empty sequence) and the constant `0.8`
otherwise. -/
def predictConf (m : FittedModel) (row : List Rat) : Except PyError Rat :=
  match m.proba with
  | some pf => pyMax (pf row)
  | none => .ok (8 / 10)

/-- The embedding of `predict.py`'s `predict()` (lines 8-45): load the
model (uncaught `FileNotFoundError` when absent), predict on the one-row
frame, compute the confidence (`predictConf`), attach feature importances
and a templated explanation string.  No `try`/`except` anywhere; the
exact decimal rendering of the Python `f'... {confidence:.1%} ...'`
format is abstracted to `toString`. -/
def predictScript (inp : PredictInput) : RunResult PredictResults :=
  match inp.modelFile with
  | none => .uncaught .modelNotFound
  | some m =>
    match predictConf m (predictRow inp) with
    | .error e => .uncaught e
    | .ok c =>
      .printed { prediction := m.predictFn (predictRow inp)
                 confidence := c
                 featureImportance := featureImportanceDict m inp.featureNames
                 explanation := "Predicted " ++ toString (m.predictFn (predictRow inp)) ++
                   " with " ++ toString c ++ " confidence" }

/-- The `performance` sub-dictionary of a neuron metadata record in
`ml_training.py` (`perf.get('clicks', ...)` etc.); every key optional. -/
structure Perf where
  clicks : Option Int
  conversions : Option Int
  revenue : Option Rat
  deriving DecidableEq, Repr

/-- One entry of `training_data['metadata']`.  `analyticsStrLen` is
`len(str(item.get('analytics', [])))` precomputed, since only that length
is ever used. -/
structure Neuron where
  performance : Option Perf
  healthScore : Option Rat
  vertical : Option String
  analyticsStrLen : Nat
  deriving DecidableEq, Repr

/-- The parsed `--data` JSON of `ml_training.py`; each top-level key is
optional because the code reaches for them with `['...']` (raising
`KeyError`, caught by the per-step handlers) or `.get`. -/
structure MLData where
  features : Option (List (List Rat))
  labels : Option (List Rat)
  metadata : Option (List Neuron)

/-- The `self.results` dictionary of `EmpireMLTrainer`
(`ml_training.py:23-32`).  The `timestamp` field (a wall-clock string) is
not modelled; `error` is the key the fallback payload adds. -/
structure MLResults where
  patterns_discovered : Nat
  cross_neuron_learnings : Nat
  improvement_opportunities : Nat
  archetype_insights : Nat
  content_optimizations : Nat
  models_updated : List String
  accuracy : Rat
  error : Option String
  deriving DecidableEq, Repr

/-- `EmpireMLTrainer.__init__`'s zeroed result counters. -/
def initResults : MLResults :=
  { patterns_discovered := 0
    cross_neuron_learnings := 0
    improvement_opportunities := 0
    archetype_insights := 0
    content_optimizations := 0
    models_updated := []
    accuracy := 0
    error := none }

/-- The denominator of the conversion-rate heuristic in
`discover_patterns` (`ml_training.py:127`):
`max(perf.get('clicks', 1), 1)`. -/
def convRateDenom (perf : Perf) : Int := max (perf.clicks.getD 1) 1

/-- The per-neuron conversion rate of `discover_patterns`. -/
def convRate (perf : Perf) : Rat :=
  ((perf.conversions.getD 0 : Int) : Rat) / ((convRateDenom perf : Int) : Rat)

/-- The pattern tags one neuron contributes to the `patterns` set in
`discover_patterns` (`ml_training.py:125-134`). -/
def neuronTags (n : Neuron) : List String :=
  let perf := n.performance.getD ⟨none, none, none⟩
  (if convRate perf > 5 / 100 then ["high_conversion"] else []) ++
    (if perf.revenue.getD 0 > 100 then ["revenue_generating"] else []) ++
      (if n.healthScore.getD 0 > 80 then ["healthy_performance"] else [])

/-- `EmpireMLTrainer.discover_patterns` (`ml_training.py:118-150`): builds
the pattern set and vertical list and updates the three counters; its
whole body is in a `try` whose handler writes the fixed counters `8/3/5`
(the only uncaught-able step is the `training_data['metadata']` access). -/
def discoverPatterns (d : MLData) (res : MLResults) : MLResults :=
  match d.metadata with
  | none =>
    { res with patterns_discovered := 8
               cross_neuron_learnings := 3
               improvement_opportunities := 5 }
  | some neurons =>
    let patterns := (neurons.map neuronTags).flatten.dedup
    let verticals := (neurons.map (fun n => n.vertical.getD "unknown")).dedup
    let crossLearnings := min (verticals.length * 2) 10
    { res with patterns_discovered := patterns.length + crossLearnings
               cross_neuron_learnings := crossLearnings
               improvement_opportunities := min patterns.length 12 }

/-- `EmpireMLTrainer.train_archetype_classifier` (`ml_training.py:34-72`):
baseline insights `2` under 10 feature rows; otherwise split 80/20 with
seed 42, fit a seeded random forest (scaling by `StandardScaler` does not
affect any claimed quantity and is folded into the library fit), score
accuracy, and set `archetype_insights = min(len(np.unique(y)), 8)`.  Any
exception (missing `features`/`labels` key, mismatched lengths) is caught
and sets `archetype_insights = 1`. -/
def trainArchetype (fitLib : FitLib) (envFit : Nat) (d : MLData)
    (res : MLResults) : MLResults :=
  match d.features with
  | none => { res with archetype_insights := 1 }
  | some fs =>
    if fs.length < 10 then { res with archetype_insights := 2 }
    else
      match d.labels with
      | none => { res with archetype_insights := 1 }
      | some ls =>
        if fs.length ≠ ls.length then { res with archetype_insights := 1 }
        else
          let n := fs.length
          let tIdx := trainIdxOf n
          let sIdx := testIdxOf n
          let xTr := tIdx.map (fun i => fs.getD i [])
          let yTr := tIdx.map (fun i => ls.getD i 0)
          let xTe := sIdx.map (fun i => fs.getD i [])
          let yTe := sIdx.map (fun i => ls.getD i 0)
          let m := fitLib (.randomForest [("n_estimators", 100), ("random_state", 42)])
            xTr yTr envFit
          let acc := accuracyScore yTe (xTe.map m.predictFn)
          { res with models_updated := res.models_updated ++ ["archetype-classifier"]
                     accuracy := max res.accuracy acc
                     archetype_insights := min ls.dedup.length 8 }

/-- One element of `extract_content_features`'s output
(`ml_training.py:103-112`). -/
structure ContentFeature where
  flen : Nat
  readability : Rat
  keywords : Int
  deriving DecidableEq, Repr

/-- `EmpireMLTrainer.extract_content_features` (`ml_training.py:103-112`):
first 10 metadata items; readability mixes in `np.random.random()`
(unseeded — modelled by the entropy stream `envRand`); keywords is Python
floor division `clicks // 10`. -/
def extractContentFeatures (envRand : Nat → Rat) (md : List Neuron) : List ContentFeature :=
  (md.take 10).enum.map (fun im =>
    { flen := im.2.analyticsStrLen
      readability := 7 / 10 + envRand im.1 * (3 / 10)
      keywords := ((im.2.performance.getD ⟨none, none, none⟩).clicks.getD 0).fdiv 10 })

/-- `EmpireMLTrainer.calculate_engagement_scores` (`ml_training.py:114-116`). -/
def engagementScores (cf : List ContentFeature) : List Rat :=
  cf.map (fun f => f.readability * (f.keywords : Rat) * (1 / 10))

/-- `EmpireMLTrainer.train_content_optimizer` (`ml_training.py:74-101`):
baseline `3` under 5 content features; otherwise fit a gradient-boosting
regressor on the engagement scores when more than 3 rows and set
`content_optimizations = min(len(content_features), 15)`.  Any exception
(the `training_data['metadata']` access inside
`extract_content_features`) is caught and sets `content_optimizations = 5`. -/
def trainContentOptimizer (fitLib : FitLib) (envRand : Nat → Rat) (envFit : Nat)
    (d : MLData) (res : MLResults) : MLResults :=
  match d.metadata with
  | none => { res with content_optimizations := 5 }
  | some md =>
    let cf := extractContentFeatures envRand md
    if cf.length < 5 then { res with content_optimizations := 3 }
    else
      let x := cf.map (fun f => [(f.flen : Rat), f.readability, (f.keywords : Rat)])
      if x.length > 3 then
        let _m := fitLib (.gradientBoosting [("n_estimators", 50), ("random_state", 42)])
          x (engagementScores cf) envFit
        { res with models_updated := res.models_updated ++ ["content-optimizer"]
                   content_optimizations := min cf.length 15 }
      else res

/-- Whether the first character list is an initial segment of the second. -/
def startsWithChars : List Char → List Char → Bool
  | [], _ => true
  | _ :: _, [] => false
  | c :: cs, d :: ds => c == d && startsWithChars cs ds

/-- Whether `sub` occurs contiguously inside the second character list. -/
def hasSubChars (sub : List Char) : List Char → Bool
  | [] => startsWithChars sub []
  | d :: ds => startsWithChars sub (d :: ds) || hasSubChars sub ds

/-- Python's `sub in s` substring test on strings. -/
def pyInStr (sub s : String) : Bool := hasSubChars sub.toList s.toList

/-- The fallback payload `ml_training.py:200-210` prints when the
top-level handler of `main()` catches an exception (in practice a
`--data` JSON parse failure, the only step outside the per-stage
handlers); `msg` is `str(e)`. -/
def fallbackResults (msg : String) : MLResults :=
  { patterns_discovered := 12
    cross_neuron_learnings := 4
    improvement_opportunities := 7
    archetype_insights := 3
    content_optimizations := 9
    models_updated := ["archetype-classifier"]
    accuracy := 82 / 100
    error := some msg }

/-- The embedding of `ml_training.py`'s `main()` (lines 170-211): parse
`--data` (an `Except` input: `.error msg` is a JSON parse failure carrying
`str(e)`), run `discover_patterns`, then the two training stages gated on
the `--models` flag (Python substring tests), and print the result JSON.
Model saving (`save_models`) has its own handler and does not touch the
results.  Every failure path still prints: the inner handlers absorb
stage failures and the top-level handler prints `fallbackResults`. -/
def mlTrainingMain (fitLib : FitLib) (envRand : Nat → Rat) (envFit : Nat)
    (models : String) (inp : Except String MLData) : RunResult MLResults :=
  match inp with
  | .error msg => .printed (fallbackResults msg)
  | .ok d =>
    let res1 := discoverPatterns d initResults
    let res2 := if pyInStr "archetype" models || models == "all" then
        trainArchetype fitLib envFit d res1
      else res1
    let res3 := if pyInStr "content" models || models == "all" then
        trainContentOptimizer fitLib envRand envFit d res2
      else res2
    .printed res3

/-- A fitted model exposing neither `feature_importances_` nor
`predict_proba`, predicting the constant `0`. -/
def constModel : FittedModel :=
  { predictFn := fun _ => 0, featImp := none, proba := none }

/-- A concrete library fit ignoring all inputs (hence trivially
deterministic): used to instantiate the `fitLib` parameter in witnesses. -/
def constFit : FitLib := fun _ _ _ _ => constModel

/-- A model exposing `feature_importances_`. -/
def wImpModel : FittedModel :=
  { predictFn := fun _ => 0, featImp := some [1 / 2], proba := none }

/-- A model exposing `predict_proba` with two classes. -/
def probaModel : FittedModel :=
  { predictFn := fun _ => 0, featImp := none,
    proba := some (fun _ => [3 / 10, 7 / 10]) }

/-- Ten synthetic records over feature `x` and target `t`. -/
def wRec (i : Nat) : Record := [("x", (i : Rat)), ("t", ((i % 2 : Nat) : Rat))]

/-- A ten-record training dataset. -/
def wData : List Record := (List.range 10).map wRec

/-- A valid training request: known algorithm, seeded estimator. -/
def wTrainInp : TrainInput :=
  { data := wData, features := ["x"], targetVariable := "t",
    algorithm := "random_forest", hyper := [("random_state", 42)] }

/-- The same training request with the unknown algorithm name
`quantum_svm`. -/
def wTrainInpQ : TrainInput :=
  { data := wData, features := ["x"], targetVariable := "t",
    algorithm := "quantum_svm", hyper := [("random_state", 42)] }

/-- A training request whose feature `y` occurs in no record: the pandas
column selection raises `KeyError`. -/
def badTrainInp : TrainInput :=
  { data := [[("x", 1)]], features := ["y"], targetVariable := "t",
    algorithm := "random_forest", hyper := [] }

/-- Records where the second record lacks the required feature key `b`. -/
def c3Recs : List Record :=
  [[("a", 1), ("b", 2), ("t", 0)], [("a", 3), ("t", 1)]]

/-- An evaluation request naming an absent model artifact. -/
def wEvalAbsent : EvalInput := { modelFile := none, data := [], featureNames := [] }

/-- An evaluation request with the artifact present and full keys. -/
def wEvalInp : EvalInput :=
  { modelFile := some constModel, data := [[("x", 1), ("target", 0)]],
    featureNames := ["x"] }

/-- `--data` payload with all three top-level keys absent. -/
def mlNoData : MLData := { features := none, labels := none, metadata := none }

/-- The results `ml_training.py` prints on `mlNoData` with no training
stage selected. -/
def wMLRes : MLResults :=
  { patterns_discovered := 8, cross_neuron_learnings := 3,
    improvement_opportunities := 5, archetype_insights := 0,
    content_optimizations := 0, models_updated := [], accuracy := 0,
    error := none }

/-- Prediction request against `constModel`. -/
def wPredInpConst : PredictInput :=
  { modelFile := some constModel, features := [("x", 1)], featureNames := ["x"] }

/-- Prediction request against `probaModel`. -/
def wPredInpProba : PredictInput :=
  { modelFile := some probaModel, features := [("x", 1)], featureNames := ["x"] }

theorem deNaN_of_isSome {l : List (Option Rat)} (h : ∀ x ∈ l, x.isSome) :
    deNaN l = some (l.map (fun o => o.getD 0)) := by
  induction l with
  | nil => rfl
  | cons x t ih =>
    have hx : x.isSome := h x (by simp)
    obtain ⟨v, rfl⟩ := Option.isSome_iff_exists.mp hx
    simp [deNaN, ih (fun y hy => h y (by simp [hy]))]

theorem deNaNMat_of_isSome {m : List (List (Option Rat))}
    (h : ∀ row ∈ m, ∀ x ∈ row, x.isSome) :
    deNaNMat m = some (m.map (fun row => row.map (fun o => o.getD 0))) := by
  induction m with
  | nil => rfl
  | cons row t ih =>
    rw [deNaNMat, deNaN_of_isSome (h row (by simp)),
      ih (fun r hr x hx => h r (by simp [hr]) x hx)]
    rfl

theorem pickOut_length {l : List Nat} (h : l ≠ []) (k : Nat) :
    (pickOut l k).2.length = l.length - 1 := by
  induction l generalizing k with
  | nil => exact absurd rfl h
  | cons x t ih =>
    cases k with
    | zero => simp [pickOut]
    | succ k =>
      cases t with
      | nil => simp [pickOut]
      | cons y u => simpa [pickOut] using ih (by simp) k

theorem shuffleAux_length {fuel s : Nat} {l : List Nat} (h : l.length ≤ fuel) :
    (shuffleAux fuel s l).length = l.length := by
  induction fuel generalizing s l with
  | zero => rfl
  | succ fuel ih =>
    cases l with
    | nil => rfl
    | cons x t =>
      have hlen : ∀ k, (pickOut (x :: t) k).2.length = t.length := by
        intro k
        rw [pickOut_length (l := x :: t) (by simp)]
        simp
      rw [shuffleAux]
      simp only [List.length_cons]
      rw [ih (by rw [hlen]; simp only [List.length_cons] at h; omega), hlen]

theorem randPerm_length (seed n : Nat) : (randPerm seed n).length = n := by
  rw [randPerm, shuffleAux_length (by simp)]
  simp

theorem testIdxOf_length {n : Nat} (h : nTestOf n ≤ n) :
    (testIdxOf n).length = nTestOf n := by
  rw [testIdxOf, List.length_take, splitPerm, randPerm_length]
  omega

theorem trainIdxOf_length (n : Nat) : (trainIdxOf n).length = n - nTestOf n := by
  rw [trainIdxOf, List.length_drop, splitPerm, randPerm_length]

theorem ratDivNat_bounds {a b : Nat} (h : a ≤ b) :
    0 ≤ (a : Rat) / (b : Rat) ∧ (a : Rat) / (b : Rat) ≤ 1 := by
  rcases Nat.eq_zero_or_pos b with hb | hb
  · subst hb
    interval_cases a
    simp
  · constructor
    · positivity
    · rw [div_le_one (by exact_mod_cast hb)]
      exact_mod_cast h

theorem countP_mono_of_imp (p q : α → Bool) (l : List α)
    (h : ∀ x ∈ l, p x → q x) : l.countP p ≤ l.countP q := by
  induction l with
  | nil => simp
  | cons x t ih =>
    rw [List.countP_cons, List.countP_cons]
    have ht := ih (fun y hy => h y (by simp [hy]))
    by_cases hp : p x
    · have hq : q x := h x (by simp) hp
      simp [hp, hq]
      omega
    · simp [hp]
      omega

theorem precisionC_bounds (pairs : List (Rat × Rat)) (c : Rat) :
    0 ≤ precisionC pairs c ∧ precisionC pairs c ≤ 1 := by
  rw [precisionC]
  split
  · simp
  · exact ratDivNat_bounds (countP_mono_of_imp _ _ _ (by
      intro x _ hx
      simp only [Bool.and_eq_true, beq_iff_eq] at hx ⊢
      exact hx.2))

theorem recallC_bounds (pairs : List (Rat × Rat)) (c : Rat) :
    0 ≤ recallC pairs c ∧ recallC pairs c ≤ 1 := by
  rw [recallC]
  split
  · simp
  · exact ratDivNat_bounds (countP_mono_of_imp _ _ _ (by
      intro x _ hx
      simp only [Bool.and_eq_true, beq_iff_eq] at hx ⊢
      exact hx.1))

theorem f1C_bounds (pairs : List (Rat × Rat)) (c : Rat) :
    0 ≤ f1C pairs c ∧ f1C pairs c ≤ 1 := by
  obtain ⟨hp0, hp1⟩ := precisionC_bounds pairs c
  obtain ⟨hr0, hr1⟩ := recallC_bounds pairs c
  rw [f1C]
  split
  · simp
  · rename_i hne
    have hpos : 0 < precisionC pairs c + recallC pairs c := by
      rcases lt_or_eq_of_le (add_nonneg hp0 hr0) with h | h
      · exact h
      · exact absurd h.symm hne
    constructor
    · positivity
    · rw [div_le_one hpos]
      have h1 : precisionC pairs c * recallC pairs c ≤ recallC pairs c :=
        mul_le_of_le_one_left hr0 hp1
      have h2 : precisionC pairs c * recallC pairs c ≤ precisionC pairs c :=
        mul_le_of_le_one_right hp0 hr1
      linarith

theorem weightedAvg_bounds (pairs : List (Rat × Rat)) (classes : List Rat)
    (f : Rat → Rat) (hf : ∀ c ∈ classes, 0 ≤ f c ∧ f c ≤ 1) :
    0 ≤ weightedAvg pairs classes f ∧ weightedAvg pairs classes f ≤ 1 := by
  rw [weightedAvg]
  set num := (classes.map (fun c => (suppOf pairs c : Rat) * f c)).sum with hnum
  set den := (classes.map (fun c => (suppOf pairs c : Rat))).sum with hden
  have hnum0 : 0 ≤ num := by
    rw [hnum]
    apply List.sum_nonneg
    intro x hx
    obtain ⟨c, hc, rfl⟩ := List.mem_map.mp hx
    exact mul_nonneg (by positivity) (hf c hc).1
  have hden0 : 0 ≤ den := by
    rw [hden]
    apply List.sum_nonneg
    intro x hx
    obtain ⟨c, _, rfl⟩ := List.mem_map.mp hx
    positivity
  have hle : num ≤ den := by
    rw [hnum, hden]
    apply List.sum_le_sum
    intro c hc
    calc (suppOf pairs c : Rat) * f c ≤ (suppOf pairs c : Rat) * 1 :=
          mul_le_mul_of_nonneg_left (hf c hc).2 (by positivity)
      _ = (suppOf pairs c : Rat) := mul_one _
  rcases eq_or_lt_of_le hden0 with h | h
  · rw [← h, div_zero]
    simp
  · exact ⟨div_nonneg hnum0 hden0, (div_le_one h).mpr hle⟩

/-- The four scalar metrics are always within `[0, 1]`, whatever the label
vectors. -/
theorem computeMetrics_bounds (yTrue yPred : List Rat) :
    (0 ≤ (computeMetrics yTrue yPred).accuracy ∧ (computeMetrics yTrue yPred).accuracy ≤ 1) ∧
    (0 ≤ (computeMetrics yTrue yPred).precisionScore ∧
      (computeMetrics yTrue yPred).precisionScore ≤ 1) ∧
    (0 ≤ (computeMetrics yTrue yPred).recallScore ∧
      (computeMetrics yTrue yPred).recallScore ≤ 1) ∧
    (0 ≤ (computeMetrics yTrue yPred).f1Score ∧ (computeMetrics yTrue yPred).f1Score ≤ 1) := by
  refine ⟨?_, ?_, ?_, ?_⟩
  · have h : (yTrue.zip yPred).countP (fun ab => ab.1 == ab.2) ≤ yTrue.length := by
      calc (yTrue.zip yPred).countP (fun ab => ab.1 == ab.2) ≤ (yTrue.zip yPred).length :=
            List.countP_le_length _
        _ ≤ yTrue.length := by rw [List.length_zip]; omega
    exact ratDivNat_bounds h
  · exact weightedAvg_bounds _ _ _ (fun c _ => precisionC_bounds _ c)
  · exact weightedAvg_bounds _ _ _ (fun c _ => recallC_bounds _ c)
  · exact weightedAvg_bounds _ _ _ (fun c _ => f1C_bounds _ c)

theorem featureBuild_ok {inp : TrainInput} (hne : inp.data ≠ [])
    (hkeys : fullyKeyed inp) :
    featureBuild inp.data inp.features inp.targetVariable =
      .ok (inp.data.map (fun r => inp.features.map (fun f => r.lookup f)),
           inp.data.map (fun r => r.lookup inp.targetVariable)) := by
  obtain ⟨r0, hr0⟩ := List.exists_mem_of_ne_nil _ hne
  have hcol : ∀ f ∈ inp.features, colExists inp.data f = true := by
    intro f hf
    exact List.any_eq_true.mpr ⟨r0, hr0, ((hkeys r0 hr0).1 f hf)⟩
  have htgt : colExists inp.data inp.targetVariable = true :=
    List.any_eq_true.mpr ⟨r0, hr0, (hkeys r0 hr0).2⟩
  rw [featureBuild, if_pos]
  rw [Bool.and_eq_true]
  exact ⟨List.all_eq_true.mpr hcol, htgt⟩

/-- On a fully-keyed input with at least 10 records, `train_model.py` runs
to completion and prints/saves exactly the closed-form result: the
`KeyError`, `NaN` and small-sample `ValueError` paths are all avoided. -/
theorem trainScript_reach (fitLib : FitLib) (inp : TrainInput) (env : Nat)
    (h10 : 10 ≤ inp.data.length) (hkeys : fullyKeyed inp) :
    trainScript fitLib inp env = .printed (trainHappy fitLib inp env) := by
  have hne : inp.data ≠ [] := by
    intro h
    rw [h] at h10
    simp at h10
  have hx : deNaNMat (inp.data.map (fun r => inp.features.map (fun f => r.lookup f))) =
      some (cleanMat inp) := by
    rw [deNaNMat_of_isSome]
    · rw [cleanMat, List.map_map]
      refine congrArg some (List.map_congr_left fun r _ => ?_)
      simp [Function.comp, List.map_map]
    · intro row hrow x hx
      obtain ⟨r, hr, rfl⟩ := List.mem_map.mp hrow
      obtain ⟨f, hf, rfl⟩ := List.mem_map.mp hx
      exact (hkeys r hr).1 f hf
  have hy : deNaN (inp.data.map (fun r => r.lookup inp.targetVariable)) =
      some (cleanTgt inp) := by
    rw [deNaN_of_isSome]
    · rw [cleanTgt, List.map_map]
      rfl
    · intro x hx
      obtain ⟨r, hr, rfl⟩ := List.mem_map.mp hx
      exact (hkeys r hr).2
  have htr : (trainIdxOf inp.data.length).length = inp.data.length - nTestOf inp.data.length :=
    trainIdxOf_length _
  have htrpos : ¬ ((trainIdxOf inp.data.length).length = 0) := by
    rw [htr, nTestOf]
    omega
  have htr5 : ¬ ((trainIdxOf inp.data.length).length < 5) := by
    rw [htr, nTestOf]
    omega
  rw [trainScript, featureBuild_ok hne hkeys]
  simp only [hx, hy]
  rw [if_neg htrpos]
  simp only [List.length_map] at htr5 ⊢
  rw [if_neg (by rw [trainIdxOf_length, nTestOf]; omega)]
  rfl

/-- On a fully-keyed nonempty dataset with the model artifact present,
`evaluate_model.py` prints exactly the Trainer's metric set — computed by
the same `computeMetrics` — over the full supplied dataset, with no
train/test split. -/
theorem evaluateScript_reach (m : FittedModel) (inp : EvalInput)
    (hm : inp.modelFile = some m) (hne : inp.data ≠ [])
    (hkeys : evalFullyKeyed inp) :
    evaluateScript inp =
      .printed { accuracy := (computeMetrics (evalTgt inp) ((evalMat inp).map m.predictFn)).accuracy
                 precisionScore := (computeMetrics (evalTgt inp) ((evalMat inp).map m.predictFn)).precisionScore
                 recallScore := (computeMetrics (evalTgt inp) ((evalMat inp).map m.predictFn)).recallScore
                 f1Score := (computeMetrics (evalTgt inp) ((evalMat inp).map m.predictFn)).f1Score
                 confusionMatrix := (computeMetrics (evalTgt inp) ((evalMat inp).map m.predictFn)).confusion
                 featureImportance := featureImportanceDict m inp.featureNames } := by
  obtain ⟨r0, hr0⟩ := List.exists_mem_of_ne_nil _ hne
  have hcol : ∀ f ∈ inp.featureNames, colExists inp.data f = true := by
    intro f hf
    exact List.any_eq_true.mpr ⟨r0, hr0, ((hkeys r0 hr0).1 f hf)⟩
  have htgt : colExists inp.data "target" = true :=
    List.any_eq_true.mpr ⟨r0, hr0, (hkeys r0 hr0).2⟩
  have hfb : featureBuild inp.data inp.featureNames "target" =
      .ok (inp.data.map (fun r => inp.featureNames.map (fun f => r.lookup f)),
           inp.data.map (fun r => r.lookup "target")) := by
    rw [featureBuild, if_pos]
    rw [Bool.and_eq_true]
    exact ⟨List.all_eq_true.mpr hcol, htgt⟩
  have hx : deNaNMat (inp.data.map (fun r => inp.featureNames.map (fun f => r.lookup f))) =
      some (evalMat inp) := by
    rw [deNaNMat_of_isSome]
    · rw [evalMat, List.map_map]
      refine congrArg some (List.map_congr_left fun r _ => ?_)
      simp [Function.comp, List.map_map]
    · intro row hrow x hx
      obtain ⟨r, hr, rfl⟩ := List.mem_map.mp hrow
      obtain ⟨f, hf, rfl⟩ := List.mem_map.mp hx
      exact (hkeys r hr).1 f hf
  have hy : deNaN (inp.data.map (fun r => r.lookup "target")) = some (evalTgt inp) := by
    rw [deNaN_of_isSome]
    · rw [evalTgt, List.map_map]
      rfl
    · intro x hx
      obtain ⟨r, hr, rfl⟩ := List.mem_map.mp hx
      exact (hkeys r hr).2
  rw [evaluateScript, hm, hfb]
  simp only [hx, hy]

theorem foldl_max_mem (a : Rat) (l : List Rat) : l.foldl max a ∈ a :: l := by
  induction l generalizing a with
  | nil => simp
  | cons h t ih =>
    rw [List.foldl_cons]
    rcases List.mem_cons.mp (ih (max a h)) with hm | hm
    · rw [hm]
      rcases max_choice a h with hc | hc <;> rw [hc] <;> simp
    · simp [hm]

theorem le_foldl_max (a : Rat) (l : List Rat) :
    a ≤ l.foldl max a ∧ ∀ x ∈ l, x ≤ l.foldl max a := by
  induction l generalizing a with
  | nil => simp
  | cons h t ih =>
    rw [List.foldl_cons]
    obtain ⟨h1, h2⟩ := ih (max a h)
    refine ⟨le_trans (le_max_left a h) h1, ?_⟩
    intro x hx
    rcases List.mem_cons.mp hx with rfl | hm
    · exact le_trans (le_max_right a x) h1
    · exact h2 x hm

theorem discoverPatterns_fields (d : MLData) (res : MLResults) :
    (discoverPatterns d res).cross_neuron_learnings ≤ 10 ∧
    (discoverPatterns d res).improvement_opportunities ≤ 12 ∧
    (discoverPatterns d res).archetype_insights = res.archetype_insights ∧
    (discoverPatterns d res).content_optimizations = res.content_optimizations ∧
    (discoverPatterns d res).error = res.error := by
  obtain ⟨fs, ls, md⟩ := d
  cases md with
  | none => simp [discoverPatterns]
  | some neurons =>
    refine ⟨?_, ?_, rfl, rfl, rfl⟩
    · exact Nat.min_le_right _ _
    · exact Nat.min_le_right _ _

theorem trainArchetype_fields (fitLib : FitLib) (envFit : Nat) (d : MLData)
    (res : MLResults) :
    (trainArchetype fitLib envFit d res).archetype_insights ≤ 8 ∧
    (trainArchetype fitLib envFit d res).cross_neuron_learnings = res.cross_neuron_learnings ∧
    (trainArchetype fitLib envFit d res).improvement_opportunities = res.improvement_opportunities ∧
    (trainArchetype fitLib envFit d res).content_optimizations = res.content_optimizations ∧
    (trainArchetype fitLib envFit d res).error = res.error := by
  obtain ⟨fs, ls, md⟩ := d
  cases fs with
  | none => simp [trainArchetype]
  | some fs =>
    by_cases h10 : fs.length < 10
    · simp [trainArchetype, h10]
    · cases ls with
      | none => simp [trainArchetype, h10]
      | some ls =>
        by_cases hlen : fs.length ≠ ls.length
        · simp [trainArchetype, h10, hlen]
        · refine ⟨?_, ?_, ?_, ?_, ?_⟩ <;>
            simp [trainArchetype, h10, hlen, Nat.min_le_right]

theorem trainContentOptimizer_fields (fitLib : FitLib) (envRand : Nat → Rat)
    (envFit : Nat) (d : MLData) (res : MLResults) :
    (trainContentOptimizer fitLib envRand envFit d res).content_optimizations ≤ 15 ∧
    (trainContentOptimizer fitLib envRand envFit d res).archetype_insights = res.archetype_insights ∧
    (trainContentOptimizer fitLib envRand envFit d res).cross_neuron_learnings = res.cross_neuron_learnings ∧
    (trainContentOptimizer fitLib envRand envFit d res).improvement_opportunities = res.improvement_opportunities ∧
    (trainContentOptimizer fitLib envRand envFit d res).error = res.error := by
  obtain ⟨fs, ls, md⟩ := d
  cases md with
  | none => simp [trainContentOptimizer]
  | some md =>
    by_cases h5 : (extractContentFeatures envRand md).length < 5
    · simp [trainContentOptimizer, h5]
    · have h3 : 3 < (extractContentFeatures envRand md).length := by omega
      refine ⟨?_, ?_, ?_, ?_, ?_⟩ <;>
        simp [trainContentOptimizer, h5, h3, Nat.min_le_right]

/-- C10: for every per-entity performance record — clicks absent, zero,
or negative included — the conversion-rate computation of
`discover_patterns` (`ml_training.py:127`) has denominator
`max(perf.get('clicks', 1), 1)`, which is at least 1 and in particular
never zero. -/
theorem c10_conversion_rate_denominator (perf : Perf) :
    1 ≤ convRateDenom perf ∧ ((convRateDenom perf : Int) : Rat) ≠ 0 := by
  have h1 : 1 ≤ convRateDenom perf := le_max_right _ _
  refine ⟨h1, ?_⟩
  have : (0 : Int) < convRateDenom perf := lt_of_lt_of_le Int.zero_lt_one h1
  exact_mod_cast ne_of_gt (by exact_mod_cast this : (0 : Rat) < ((convRateDenom perf : Int) : Rat))

/-- C9: every result object `ml_training.py` prints without an `error`
key has its summary counters within the fixed caps:
`archetype_insights ≤ 8`, `cross_neuron_learnings ≤ 10`,
`improvement_opportunities ≤ 12`, `content_optimizations ≤ 15`. -/
theorem c9_counters_bounded (fitLib : FitLib) (envRand : Nat → Rat) (envFit : Nat)
    (models : String) (inp : Except String MLData) (r : MLResults)
    (hrun : mlTrainingMain fitLib envRand envFit models inp = .printed r)
    (herr : r.error = none) :
    r.archetype_insights ≤ 8 ∧ r.cross_neuron_learnings ≤ 10 ∧
      r.improvement_opportunities ≤ 12 ∧ r.content_optimizations ≤ 15 := by
  cases inp with
  | error msg =>
    rw [mlTrainingMain] at hrun
    injection hrun with h
    rw [← h] at herr
    simp [fallbackResults] at herr
  | ok d =>
    rw [mlTrainingMain] at hrun
    injection hrun with h
    subst h
    clear herr
    obtain ⟨d1cross, d1imp, d1arch, d1cont, -⟩ :=
      discoverPatterns_fields d initResults
    set res1 := discoverPatterns d initResults with hres1
    have harch1 : res1.archetype_insights ≤ 8 := by rw [d1arch]; simp [initResults]
    have hcont1 : res1.content_optimizations ≤ 15 := by rw [d1cont]; simp [initResults]
    set res2 := if pyInStr "archetype" models || models == "all" then
        trainArchetype fitLib envFit d res1
      else res1 with hres2
    have h2 : res2.archetype_insights ≤ 8 ∧ res2.cross_neuron_learnings ≤ 10 ∧
        res2.improvement_opportunities ≤ 12 ∧ res2.content_optimizations ≤ 15 := by
      rw [hres2]
      split
      · obtain ⟨a, b, c, e, -⟩ := trainArchetype_fields fitLib envFit d res1
        exact ⟨a, by rw [b]; exact d1cross, by rw [c]; exact d1imp, by rw [e]; exact hcont1⟩
      · exact ⟨harch1, d1cross, d1imp, hcont1⟩
    split
    · obtain ⟨a, b, c, e, -⟩ := trainContentOptimizer_fields fitLib envRand envFit d res2
      exact ⟨by rw [b]; exact h2.1, by rw [c]; exact h2.2.1, by rw [e]; exact h2.2.2.1, a⟩
    · exact h2

/-- The records of `wData` all carry both keys. -/
theorem wTrainInp_fullyKeyed : fullyKeyed wTrainInp := by decide

/-- C9 witness: a run over a payload with no metadata/features/labels and
no training stage selected prints `wMLRes` with no error, and its counters
satisfy the caps. -/
theorem c9_witness :
    (mlTrainingMain constFit (fun _ => 0) 0 "x" (.ok mlNoData) = .printed wMLRes ∧
      wMLRes.error = none) ∧
    (wMLRes.archetype_insights ≤ 8 ∧ wMLRes.cross_neuron_learnings ≤ 10 ∧
      wMLRes.improvement_opportunities ≤ 12 ∧ wMLRes.content_optimizations ≤ 15) :=
  ⟨⟨rfl, rfl⟩, c9_counters_bounded constFit (fun _ => 0) 0 "x" (.ok mlNoData) wMLRes rfl rfl⟩

/-- C2 counterexample: on a training payload whose feature column `y`
exists in no record, `train_model.py` raises a pandas `KeyError` that no
handler catches — the process dies with a stack trace and prints no JSON
object at all, contradicting the claim that the training script catches
every failure at the top level and prints an `error` payload. -/
theorem c2_counterexample :
    trainScript constFit badTrainInp 0 = RunResult.uncaught PyError.keyError ∧
      (trainScript constFit badTrainInp 0).didPrint = false := by
  have hfb : featureBuild badTrainInp.data badTrainInp.features badTrainInp.targetVariable =
      .error .keyError := by rfl
  rw [trainScript, hfb]
  exact ⟨rfl, rfl⟩

/-- C2 amended: only `ml_training.py` catches failures at the top level —
its `main()` always prints a JSON result, and on a parse failure prints
the fixed fallback payload with an `error` field.  The
`train_model.py` / `evaluate_model.py` / `predict.py` scripts have no
handler: their failures propagate to the shell uncaught (shown here on a
missing feature column and on an absent model artifact). -/
theorem c2_amended (fitLib : FitLib) (envRand : Nat → Rat) (envFit : Nat)
    (models : String) (inp : Except String MLData) :
    (∃ r, mlTrainingMain fitLib envRand envFit models inp = .printed r) ∧
    (∀ msg, inp = .error msg →
      mlTrainingMain fitLib envRand envFit models inp = .printed (fallbackResults msg) ∧
      (fallbackResults msg).error = some msg) ∧
    trainScript constFit badTrainInp 0 = .uncaught .keyError ∧
    evaluateScript wEvalAbsent = .uncaught .modelNotFound ∧
    predictScript { modelFile := none, features := [], featureNames := [] } =
      .uncaught .modelNotFound := by
  refine ⟨?_, ?_, ?_, rfl, rfl⟩
  · cases inp with
    | error msg => exact ⟨fallbackResults msg, rfl⟩
    | ok d => exact ⟨_, rfl⟩
  · rintro msg rfl
    exact ⟨rfl, rfl⟩
  · have hfb : featureBuild badTrainInp.data badTrainInp.features badTrainInp.targetVariable =
        .error .keyError := by rfl
    rw [trainScript, hfb]

/-- C2 amended witness: the amended statement instantiated on a JSON
parse failure. -/
theorem c2_amended_witness :
    (∃ r, mlTrainingMain constFit (fun _ => 0) 0 "all" (.error "bad json") = .printed r) ∧
    (mlTrainingMain constFit (fun _ => 0) 0 "all" (.error "bad json") =
        .printed (fallbackResults "bad json") ∧
      (fallbackResults "bad json").error = some "bad json") :=
  ⟨(c2_amended constFit (fun _ => 0) 0 "all" (.error "bad json")).1,
    (c2_amended constFit (fun _ => 0) 0 "all" (.error "bad json")).2.1 "bad json" rfl⟩

/-- C1: for every training request whose `algorithm` is none of the four
enumerated names, the `if`/`elif` chain selects `RandomForestClassifier()`
with default hyperparameters, and (on well-formed data) the run raises no
error: it prints its results and the saved artifact is the library fit of
that default random-forest configuration. -/
theorem c1_unknown_algorithm_fallback (fitLib : FitLib) (inp : TrainInput) (env : Nat)
    (halg : inp.algorithm ∉
      ["random_forest", "gradient_boosting", "logistic_regression", "neural_network"])
    (h10 : 10 ≤ inp.data.length) (hkeys : fullyKeyed inp) :
    selectEstimator inp.algorithm inp.hyper = SkEstimator.randomForest [] ∧
    trainScript fitLib inp env = .printed (trainHappy fitLib inp env) ∧
    (trainHappy fitLib inp env).2 =
      fitLib (SkEstimator.randomForest []) (happyXtr inp) (happyYtr inp) env := by
  have h1 : inp.algorithm ≠ "random_forest" := fun h => halg (by simp [h])
  have h2 : inp.algorithm ≠ "gradient_boosting" := fun h => halg (by simp [h])
  have h3 : inp.algorithm ≠ "logistic_regression" := fun h => halg (by simp [h])
  have h4 : inp.algorithm ≠ "neural_network" := fun h => halg (by simp [h])
  have hsel : selectEstimator inp.algorithm inp.hyper = SkEstimator.randomForest [] := by
    rw [selectEstimator, if_neg h1, if_neg h2, if_neg h3, if_neg h4]
  refine ⟨hsel, trainScript_reach fitLib inp env h10 hkeys, ?_⟩
  rw [trainHappy]
  simp only [hsel]

/-- C1 witness: `algorithm="quantum_svm"` on a valid ten-record dataset. -/
theorem c1_witness :
    ("quantum_svm" ∉
        ["random_forest", "gradient_boosting", "logistic_regression", "neural_network"] ∧
      10 ≤ wTrainInpQ.data.length ∧ fullyKeyed wTrainInpQ) ∧
    (selectEstimator wTrainInpQ.algorithm wTrainInpQ.hyper = SkEstimator.randomForest [] ∧
      trainScript constFit wTrainInpQ 0 = .printed (trainHappy constFit wTrainInpQ 0) ∧
      (trainHappy constFit wTrainInpQ 0).2 =
        constFit (SkEstimator.randomForest []) (happyXtr wTrainInpQ) (happyYtr wTrainInpQ) 0) :=
  ⟨⟨by decide, by decide, by decide⟩,
    c1_unknown_algorithm_fallback constFit wTrainInpQ 0 (by decide) (by decide) (by decide)⟩

/-- C3 counterexample: on records where the second record is missing the
required feature key `b` (shown by the second conjunct), the Feature
Builder does not fail at all — no `SchemaError`, no signaled failure of
any kind exists in the code; the column selection succeeds and the gap
becomes a `NaN` cell.  This contradicts the claim that any input with a
missing required key makes the Feature Builder fail with a
`SchemaError`-like signaled error. -/
theorem c3_counterexample :
    featureBuild c3Recs ["a", "b"] "t" =
      Except.ok ([[some 1, some 2], [some 3, none]], [some 0, some 1]) ∧
    List.lookup "b" [(("a" : String), (3 : Rat)), ("t", 1)] = none := by
  exact ⟨by rfl, by rfl⟩

/-- C3 amended: the code defines no `SchemaError`.  When every required
column (each feature and the target) is present in at least one record,
the Feature Builder succeeds even if individual records are missing keys
(the holes become `NaN` cells); when some required column is present in
no record, the pandas selection raises a `KeyError` that nothing catches
— a crash with a raw stack trace, not a signaled failure. -/
theorem c3_amended (rs : List Record) (fs : List String) (t : String) :
    ((∀ f ∈ fs, ∃ r ∈ rs, (r.lookup f).isSome) → (∃ r ∈ rs, (r.lookup t).isSome) →
      featureBuild rs fs t =
        .ok (rs.map (fun r => fs.map (fun f => r.lookup f)),
             rs.map (fun r => r.lookup t))) ∧
    (∀ f ∈ fs, (∀ r ∈ rs, (r.lookup f).isSome = false) →
      featureBuild rs fs t = .error .keyError) ∧
    ((∀ r ∈ rs, (r.lookup t).isSome = false) →
      featureBuild rs fs t = .error .keyError) := by
  refine ⟨?_, ?_, ?_⟩
  · intro hfs ht
    rw [featureBuild, if_pos]
    rw [Bool.and_eq_true]
    constructor
    · rw [List.all_eq_true]
      intro f hf
      obtain ⟨r, hr, hs⟩ := hfs f hf
      exact List.any_eq_true.mpr ⟨r, hr, hs⟩
    · obtain ⟨r, hr, hs⟩ := ht
      exact List.any_eq_true.mpr ⟨r, hr, hs⟩
  · intro f hf hnone
    rw [featureBuild, if_neg]
    intro hcond
    rw [Bool.and_eq_true, List.all_eq_true] at hcond
    obtain ⟨r, hr, hs⟩ := List.any_eq_true.mp (hcond.1 f hf)
    rw [hnone r hr] at hs
    exact Bool.false_ne_true hs
  · intro hnone
    rw [featureBuild, if_neg]
    intro hcond
    rw [Bool.and_eq_true] at hcond
    obtain ⟨r, hr, hs⟩ := List.any_eq_true.mp hcond.2
    rw [hnone r hr] at hs
    exact Bool.false_ne_true hs

/-- C3 amended witness: the three amended branches at concrete inputs —
partial-missing success on `c3Recs`, feature column `z` absent from every
record, target `u` absent from every record. -/
theorem c3_amended_witness :
    featureBuild c3Recs ["a", "b"] "t" =
      .ok (c3Recs.map (fun r => ["a", "b"].map (fun f => r.lookup f)),
           c3Recs.map (fun r => r.lookup "t")) ∧
    featureBuild c3Recs ["z"] "t" = .error .keyError ∧
    featureBuild c3Recs ["a"] "u" = .error .keyError :=
  ⟨(c3_amended c3Recs ["a", "b"] "t").1 (by decide) (by decide),
    (c3_amended c3Recs ["z"] "t").2.1 "z" (by decide) (by decide),
    (c3_amended c3Recs ["a"] "u").2.2 (by decide)⟩

theorem cvScores_env_irrelevant (fitLib : FitLib)
    (hdet : ∀ est x y e₁ e₂, SkEstimator.seeded est = true →
      fitLib est x y e₁ = fitLib est x y e₂)
    (est : SkEstimator) (hseed : est.seeded = true)
    (x : List (List Rat)) (y : List Rat) (e₁ e₂ : Nat) :
    cvScores fitLib est x y e₁ = cvScores fitLib est x y e₂ := by
  rw [cvScores, cvScores]
  refine List.map_congr_left fun sr _ => ?_
  dsimp only
  rw [hdet est _ _ e₁ e₂ hseed]

/-- C4: two invocations of `train_model.py` on the same data with all
random state pinned — the split's hard-coded `random_state=42` plus a
seeded estimator, over any deterministic library — produce identical
output: in particular identical train/test splits (the split indices are
a pure function of the data, independent of process entropy) and
identical cross-validation scores. -/
theorem c4_reproducible (fitLib : FitLib)
    (hdet : ∀ est x y e₁ e₂, SkEstimator.seeded est = true →
      fitLib est x y e₁ = fitLib est x y e₂)
    (inp : TrainInput)
    (hseed : (selectEstimator inp.algorithm inp.hyper).seeded = true)
    (e₁ e₂ : Nat) :
    trainScript fitLib inp e₁ = trainScript fitLib inp e₂ ∧
    (trainIdxOf inp.data.length, testIdxOf inp.data.length) =
      (trainIdxOf inp.data.length, testIdxOf inp.data.length) := by
  refine ⟨?_, rfl⟩
  have hdetSimp : ∀ x y, fitLib (selectEstimator inp.algorithm inp.hyper) x y e₁ =
      fitLib (selectEstimator inp.algorithm inp.hyper) x y e₂ :=
    fun x y => hdet _ x y e₁ e₂ hseed
  have hcv : ∀ x y, cvScores fitLib (selectEstimator inp.algorithm inp.hyper) x y e₁ =
      cvScores fitLib (selectEstimator inp.algorithm inp.hyper) x y e₂ :=
    fun x y => cvScores_env_irrelevant fitLib hdet _ hseed x y e₁ e₂
  simp only [trainScript, cvMean, hdetSimp, hcv]

/-- C4 witness: with the deterministic `constFit` library and the seeded
request `wTrainInp`, two runs under different process entropy coincide. -/
theorem c4_witness :
    (selectEstimator wTrainInp.algorithm wTrainInp.hyper).seeded = true ∧
    (trainScript constFit wTrainInp 0 = trainScript constFit wTrainInp 1 ∧
      (trainIdxOf wTrainInp.data.length, testIdxOf wTrainInp.data.length) =
        (trainIdxOf wTrainInp.data.length, testIdxOf wTrainInp.data.length)) :=
  ⟨by decide,
    c4_reproducible constFit (fun _ _ _ _ _ _ => rfl) wTrainInp (by decide) 0 1⟩

theorem predictScript_printed {m : FittedModel} {inp : PredictInput} {c : Rat}
    (hm : inp.modelFile = some m)
    (hc : predictConf m (predictRow inp) = .ok c) :
    ∃ r, predictScript inp = .printed r ∧ r.confidence = c ∧
      r.featureImportance = featureImportanceDict m inp.featureNames := by
  obtain ⟨mf, feats, names⟩ := inp
  simp only at hm
  subst hm
  rw [predictScript]
  dsimp only
  rw [hc]
  exact ⟨_, rfl, rfl, rfl⟩

/-- C5: `predict.py`'s confidence is `max(model.predict_proba(df)[0])` --
the greatest class probability, i.e. that of the predicted class -- when
the model exposes `predict_proba`, and the fixed constant `0.8`
otherwise; in both cases it lies in `[0, 1]` (given the library invariant
that probability outputs are within `[0, 1]`). -/
theorem c5_confidence (m : FittedModel) (feats : List (String × Rat))
    (names : List String) :
    (m.proba = none →
      ∃ r, predictScript { modelFile := some m, features := feats, featureNames := names } =
          .printed r ∧
        r.confidence = 8 / 10 ∧ 0 ≤ r.confidence ∧ r.confidence ≤ 1) ∧
    (∀ pf, m.proba = some pf →
      pf (feats.map (fun kv => kv.2)) ≠ [] →
      (∀ p ∈ pf (feats.map (fun kv => kv.2)), 0 ≤ p ∧ p ≤ 1) →
      ∃ r, predictScript { modelFile := some m, features := feats, featureNames := names } =
          .printed r ∧
        r.confidence ∈ pf (feats.map (fun kv => kv.2)) ∧
        (∀ p ∈ pf (feats.map (fun kv => kv.2)), p ≤ r.confidence) ∧
        0 ≤ r.confidence ∧ r.confidence ≤ 1) := by
  constructor
  · intro hp
    obtain ⟨r, hr, hconf, -⟩ :=
      @predictScript_printed m
        { modelFile := some m, features := feats, featureNames := names } _
        rfl (by rw [predictConf, hp])
    exact ⟨r, hr, hconf, by rw [hconf]; norm_num, by rw [hconf]; norm_num⟩
  · intro pf hp hne hbd
    obtain ⟨h, t, hrow⟩ : ∃ h t, pf (feats.map (fun kv => kv.2)) = h :: t := by
      cases hEq : pf (feats.map (fun kv => kv.2)) with
      | nil => exact absurd hEq hne
      | cons h t => exact ⟨h, t, rfl⟩
    have hconfEq : predictConf m (predictRow
        { modelFile := some m, features := feats, featureNames := names }) =
        .ok (t.foldl max h) := by
      rw [predictConf, hp, predictRow]
      dsimp only
      rw [hrow, pyMax]
    obtain ⟨r, hr, hconf, -⟩ := predictScript_printed rfl hconfEq
    have hmem : r.confidence ∈ pf (feats.map (fun kv => kv.2)) := by
      rw [hconf, hrow]
      exact foldl_max_mem h t
    have hub : ∀ p ∈ pf (feats.map (fun kv => kv.2)), p ≤ r.confidence := by
      intro p hpmem
      rw [hrow] at hpmem
      rw [hconf]
      rcases List.mem_cons.mp hpmem with rfl | hpt
      · exact (le_foldl_max p t).1
      · exact (le_foldl_max h t).2 p hpt
    exact ⟨r, hr, hmem, hub, (hbd _ hmem).1, (hbd _ hmem).2⟩

/-- C5 witness: both branches at concrete models -- `probaModel` exposes
class probabilities `[0.3, 0.7]`, `constModel` exposes none. -/
theorem c5_witness :
    (∃ r, predictScript wPredInpConst = .printed r ∧
        r.confidence = 8 / 10 ∧ 0 ≤ r.confidence ∧ r.confidence ≤ 1) ∧
    (∃ r, predictScript wPredInpProba = .printed r ∧
        r.confidence ∈ [(3 : Rat) / 10, 7 / 10] ∧
        (∀ p ∈ [(3 : Rat) / 10, 7 / 10], p ≤ r.confidence) ∧
        0 ≤ r.confidence ∧ r.confidence ≤ 1) :=
  ⟨(c5_confidence constModel [("x", 1)] ["x"]).1 rfl,
    (c5_confidence probaModel [("x", 1)] ["x"]).2 (fun _ => [3 / 10, 7 / 10]) rfl
      (by decide) (by norm_num)⟩

/-- C6: when the named model artifact is absent from the Model Store,
`evaluate_model.py` fails on `joblib.load` with the artifact-not-found
error; when it is present (on a well-formed dataset), the script prints
the Trainer's metric set — computed by the same `computeMetrics`
definition the Trainer uses — over the full supplied dataset, with no
train/test split. -/
theorem c6_evaluate (inp : EvalInput) :
    (inp.modelFile = none → evaluateScript inp = .uncaught .modelNotFound) ∧
    (∀ m, inp.modelFile = some m → inp.data ≠ [] → evalFullyKeyed inp →
      evaluateScript inp =
        .printed { accuracy := (computeMetrics (evalTgt inp) ((evalMat inp).map m.predictFn)).accuracy
                   precisionScore := (computeMetrics (evalTgt inp) ((evalMat inp).map m.predictFn)).precisionScore
                   recallScore := (computeMetrics (evalTgt inp) ((evalMat inp).map m.predictFn)).recallScore
                   f1Score := (computeMetrics (evalTgt inp) ((evalMat inp).map m.predictFn)).f1Score
                   confusionMatrix := (computeMetrics (evalTgt inp) ((evalMat inp).map m.predictFn)).confusion
                   featureImportance := featureImportanceDict m inp.featureNames }) := by
  constructor
  · intro hm
    rw [evaluateScript, hm]
  · intro m hm hne hkeys
    exact evaluateScript_reach m inp hm hne hkeys

/-- C6 witness: the absent-artifact branch on `wEvalAbsent` and the
present-artifact branch on `wEvalInp`. -/
theorem c6_witness :
    evaluateScript wEvalAbsent = .uncaught .modelNotFound ∧
    evaluateScript wEvalInp =
      .printed { accuracy := (computeMetrics (evalTgt wEvalInp) ((evalMat wEvalInp).map constModel.predictFn)).accuracy
                 precisionScore := (computeMetrics (evalTgt wEvalInp) ((evalMat wEvalInp).map constModel.predictFn)).precisionScore
                 recallScore := (computeMetrics (evalTgt wEvalInp) ((evalMat wEvalInp).map constModel.predictFn)).recallScore
                 f1Score := (computeMetrics (evalTgt wEvalInp) ((evalMat wEvalInp).map constModel.predictFn)).f1Score
                 confusionMatrix := (computeMetrics (evalTgt wEvalInp) ((evalMat wEvalInp).map constModel.predictFn)).confusion
                 featureImportance := featureImportanceDict constModel wEvalInp.featureNames } :=
  ⟨(c6_evaluate wEvalAbsent).1 rfl,
    (c6_evaluate wEvalInp).2 constModel rfl (by decide) (by decide)⟩

/-- C8: on every valid training request with at least 10 records (every
record carrying all feature keys and the target), `train_model.py` runs
to completion and the four printed metrics — accuracy and
weighted-average precision, recall and F1 — are each within `[0, 1]`,
for every behavior of the fitted model's predictions. -/
theorem c8_metrics_in_unit_interval (fitLib : FitLib) (inp : TrainInput) (env : Nat)
    (h10 : 10 ≤ inp.data.length) (hkeys : fullyKeyed inp) :
    ∃ out, trainScript fitLib inp env = .printed out ∧
      (0 ≤ out.1.accuracy ∧ out.1.accuracy ≤ 1) ∧
      (0 ≤ out.1.precisionScore ∧ out.1.precisionScore ≤ 1) ∧
      (0 ≤ out.1.recallScore ∧ out.1.recallScore ≤ 1) ∧
      (0 ≤ out.1.f1Score ∧ out.1.f1Score ≤ 1) := by
  obtain ⟨ha, hp, hr, hf⟩ := computeMetrics_bounds (happyYte inp)
    ((happyXte inp).map (fitLib (selectEstimator inp.algorithm inp.hyper)
      (happyXtr inp) (happyYtr inp) env).predictFn)
  exact ⟨trainHappy fitLib inp env, trainScript_reach fitLib inp env h10 hkeys,
    ha, hp, hr, hf⟩

/-- C8 witness: the ten-record request `wTrainInp` under `constFit`. -/
theorem c8_witness :
    (10 ≤ wTrainInp.data.length ∧ fullyKeyed wTrainInp) ∧
    (∃ out, trainScript constFit wTrainInp 0 = .printed out ∧
      (0 ≤ out.1.accuracy ∧ out.1.accuracy ≤ 1) ∧
      (0 ≤ out.1.precisionScore ∧ out.1.precisionScore ≤ 1) ∧
      (0 ≤ out.1.recallScore ∧ out.1.recallScore ≤ 1) ∧
      (0 ≤ out.1.f1Score ∧ out.1.f1Score ≤ 1)) :=
  ⟨⟨by decide, wTrainInp_fullyKeyed⟩,
    c8_metrics_in_unit_interval constFit wTrainInp 0 (by decide) wTrainInp_fullyKeyed⟩

/-- C7: the shared `hasattr(model, 'feature_importances_')` extraction
returns `dict(zip(names, importances))` when the estimator exposes
importances and the empty mapping when it does not — never an error —
and each of the Trainer, Evaluator and Predictor scripts returns exactly
this extraction in the `featureImportance` field of its printed result. -/
theorem c7_feature_importance (m : FittedModel) (names : List String) :
    (m.featImp = none → featureImportanceDict m names = []) ∧
    (∀ w, m.featImp = some w → featureImportanceDict m names = names.zip w) ∧
    (∀ fitLib inp env, 10 ≤ (inp : TrainInput).data.length → fullyKeyed inp →
      trainScript fitLib inp env = .printed (trainHappy fitLib inp env) ∧
      (trainHappy fitLib inp env).1.featureImportance =
        featureImportanceDict (trainHappy fitLib inp env).2 inp.features) ∧
    (∀ inp : EvalInput, inp.modelFile = some m → inp.data ≠ [] → evalFullyKeyed inp →
      ∃ r, evaluateScript inp = .printed r ∧
        r.featureImportance = featureImportanceDict m inp.featureNames) ∧
    (∀ feats : List (String × Rat),
      (∀ pf, m.proba = some pf → pf (feats.map (fun kv => kv.2)) ≠ []) →
      ∃ r, predictScript { modelFile := some m, features := feats, featureNames := names } =
          .printed r ∧
        r.featureImportance = featureImportanceDict m names) := by
  refine ⟨?_, ?_, ?_, ?_, ?_⟩
  · intro h
    rw [featureImportanceDict, h]
  · intro w h
    rw [featureImportanceDict, h]
  · intro fitLib inp env h10 hkeys
    exact ⟨trainScript_reach fitLib inp env h10 hkeys, rfl⟩
  · intro inp hm hne hkeys
    exact ⟨_, evaluateScript_reach m inp hm hne hkeys, rfl⟩
  · intro feats hproba
    cases hp : m.proba with
    | none =>
      obtain ⟨r, hr, -, hfi⟩ := @predictScript_printed m
        { modelFile := some m, features := feats, featureNames := names } _
        rfl (by rw [predictConf, hp])
      exact ⟨r, hr, hfi⟩
    | some pf =>
      obtain ⟨h, t, hrow⟩ : ∃ h t, pf (feats.map (fun kv => kv.2)) = h :: t := by
        cases hEq : pf (feats.map (fun kv => kv.2)) with
        | nil => exact absurd hEq (hproba pf hp)
        | cons h t => exact ⟨h, t, rfl⟩
      obtain ⟨r, hr, -, hfi⟩ := @predictScript_printed m
        { modelFile := some m, features := feats, featureNames := names } _
        rfl (by rw [predictConf, hp, predictRow]; dsimp only; rw [hrow, pyMax])
      exact ⟨r, hr, hfi⟩

/-- C7 witness: the empty mapping on `constModel`, the zipped mapping on
`wImpModel`, and the Trainer's printed field on the concrete request. -/
theorem c7_witness :
    featureImportanceDict constModel ["x"] = [] ∧
    featureImportanceDict wImpModel ["x"] = List.zip ["x"] [1 / 2] ∧
    (trainScript constFit wTrainInp 0 = .printed (trainHappy constFit wTrainInp 0) ∧
      (trainHappy constFit wTrainInp 0).1.featureImportance =
        featureImportanceDict (trainHappy constFit wTrainInp 0).2 wTrainInp.features) :=
  ⟨(c7_feature_importance constModel ["x"]).1 rfl,
    (c7_feature_importance wImpModel ["x"]).2.1 [1 / 2] rfl,
    (c7_feature_importance constModel ["x"]).2.2.1 constFit wTrainInp 0 (by decide)
      wTrainInp_fullyKeyed⟩

